import Mathlib

/-!
# AquaBlitz: verification of the client simulation and sync loop

Shallow embedding of the boat-racing client (`src/public/js/game.js`, the
revision in `src/unnamed/part_002`) and the relay server
(`src/unnamed/part_004`).  All machine floats are modelled as exact
rationals; the JS `Math`/`THREE.MathUtils` helpers used by the code are
embedded below.
-/

/-- `THREE.MathUtils.clamp(value, min, max) = Math.max(min, Math.min(max, value))`. -/
def mathClamp (value lo hi : ℚ) : ℚ := max lo (min hi value)

/-- `THREE.MathUtils.lerp(x, y, t) = (1 - t) * x + t * y`. -/
def mathLerp (x y t : ℚ) : ℚ := (1 - t) * x + t * y

/-- The `keys` object of the client: which control keys are currently held. -/
structure Keys where
  forward : Bool
  backward : Bool
  left : Bool
  right : Bool
  drift : Bool
  deriving DecidableEq, Repr

/-- Physics constants of one client revision.  `forwardRate`/`reverseRate`
are the literal factors multiplying `ACCELERATION * delta` in the forward and
backward branches of `update()`; `coast` is the multiplicative decay applied
when neither key is held (`1` for the `part_002` revision, which has no
coasting branch); `reverseFactor` is the factor in the lower clamp bound
`-MAX_SPEED * reverseFactor`. -/
structure PhysicsConfig where
  accel : ℚ
  maxSpeed : ℚ
  drag : ℚ
  reverseFactor : ℚ
  forwardRate : ℚ
  reverseRate : ℚ
  coast : ℚ
  deriving DecidableEq, Repr

/-- Constants of the first `game.js` revision (lines 10-14 with the
`update()` at lines 642-780): `ACCELERATION = 1000`, `MAX_SPEED = 800`,
`DRAG_COEFFICIENT = 0.98`, forward factor `0.2`, backward factor `0.15`,
coasting `speed *= 0.99`, clamp lower bound `-MAX_SPEED * 0.4`. -/
def gameRevA : PhysicsConfig :=
  { accel := 1000, maxSpeed := 800, drag := 98/100, reverseFactor := 4/10,
    forwardRate := 2/10, reverseRate := 15/100, coast := 99/100 }

/-- Constants of the second `game.js` revision (lines 1098-1102 with the
`update()` at lines 1578-1700): `ACCELERATION = 2000`, `MAX_SPEED = 1500`,
`DRAG_COEFFICIENT = 0.98`, forward factor `1`, backward factor `0.7`,
coasting `speed *= 0.95`, clamp lower bound `-MAX_SPEED * 0.4`. -/
def gameRevB : PhysicsConfig :=
  { accel := 2000, maxSpeed := 1500, drag := 98/100, reverseFactor := 4/10,
    forwardRate := 1, reverseRate := 7/10, coast := 95/100 }

/-- Constants of the `part_002` revision (lines 7-11 with the `update()` at
lines 383-395): `ACCELERATION = 800`, `MAX_SPEED = 1000`,
`DRAG_COEFFICIENT = 0.95`, forward and backward factor `1`, no coasting
branch (`coast = 1`), clamp lower bound `-MAX_SPEED * 0.5`. -/
def part002Cfg : PhysicsConfig :=
  { accel := 800, maxSpeed := 1000, drag := 95/100, reverseFactor := 5/10,
    forwardRate := 1, reverseRate := 1, coast := 1 }

/-- The acceleration phase of `update()`:
`if (keys.forward) speed += ACCELERATION * delta * fr;`
`else if (keys.backward) speed -= ACCELERATION * delta * rr;`
`else speed *= coast;` (the last branch absent, i.e. `coast = 1`, in
`part_002`). -/
def accelPhase (cfg : PhysicsConfig) (k : Keys) (dt s : ℚ) : ℚ :=
  if k.forward then s + cfg.accel * dt * cfg.forwardRate
  else if k.backward then s - cfg.accel * dt * cfg.reverseRate
  else s * cfg.coast

/-- One full speed update of `update()`: acceleration phase, then
`speed *= DRAG_COEFFICIENT;` then
`speed = THREE.MathUtils.clamp(speed, -MAX_SPEED * reverseFactor, MAX_SPEED);`. -/
def speedStep (cfg : PhysicsConfig) (k : Keys) (dt s : ℚ) : ℚ :=
  mathClamp (accelPhase cfg k dt s * cfg.drag)
    (-(cfg.maxSpeed * cfg.reverseFactor)) cfg.maxSpeed

/-- The all-keys-released input state. -/
def kNone : Keys := ⟨false, false, false, false, false⟩

/-- Constant forward input. -/
def kFwd : Keys := ⟨true, false, false, false, false⟩

/-- Forward and backward simultaneously held. -/
def kBoth : Keys := ⟨true, true, false, false, false⟩

/-- C1: after every simulation update step, for every held-input combination
and every Δt ≥ 0, the boat speed lies in `[-MAX_SPEED * reverseFactor,
MAX_SPEED]`; the clamp is applied unconditionally at the end of the
acceleration/drag phase.  Stated for every configuration with a nonnegative
top speed and reverse factor, which includes all three revisions
(`gameRevA`, `gameRevB` with `reverseFactor = 0.4`, `part002Cfg` with
`reverseFactor = 0.5`, all strictly less than 1). -/
theorem C1_speed_clamped (cfg : PhysicsConfig) (k : Keys) (dt s : ℚ)
    (hM : 0 ≤ cfg.maxSpeed) (hrf : 0 ≤ cfg.reverseFactor) (hdt : 0 ≤ dt) :
    -(cfg.maxSpeed * cfg.reverseFactor) ≤ speedStep cfg k dt s ∧
      speedStep cfg k dt s ≤ cfg.maxSpeed := by
  unfold speedStep mathClamp
  constructor
  · exact le_max_left _ _
  · exact max_le (by nlinarith) (min_le_left _ _)

/-- Witness for C1: at the second `game.js` revision's constants, with every
key held, Δt = 2 and an absurdly large prior speed, the updated speed still
lies in `[-600, 1500]`. -/
theorem C1_speed_clamped_witness :
    -(gameRevB.maxSpeed * gameRevB.reverseFactor) ≤
        speedStep gameRevB ⟨true, true, true, true, true⟩ 2 1000000 ∧
      speedStep gameRevB ⟨true, true, true, true, true⟩ 2 1000000 ≤
        gameRevB.maxSpeed :=
  C1_speed_clamped gameRevB ⟨true, true, true, true, true⟩ 2 1000000
    (by norm_num [gameRevB]) (by norm_num [gameRevB]) (by norm_num)

/-- The vertical floor step of the second and third `game.js` revisions
(lines 1655-1657 and 2502-2503):
`const bobHeight = Math.sin(Date.now() * 0.003) * 0.5;`
`playerBoat.position.y = Math.max(5 + bobHeight, playerBoat.position.y);`
The bob term `bob = sin(...) * 0.5 ∈ [-1/2, 1/2]` is passed as a parameter. -/
def floorStepClamp (bob y : ℚ) : ℚ := max (5 + bob) y

/-- The vertical floor step of the `part_002` revision (line 419):
`playerBoat.position.y = Math.max(5, playerBoat.position.y);`. -/
def floorStepPart002 (y : ℚ) : ℚ := max 5 y

/-- The vertical floor step of the first `game.js` revision (lines 735-737):
`const bobHeight = Math.sin(Date.now() * 0.0008) * 0.15;`
`playerBoat.position.y = THREE.MathUtils.lerp(playerBoat.position.y, 5 + bobHeight, 0.03);`
— a 3% interpolation toward the floor, not a clamp. -/
def floorStepLerp (bob y : ℚ) : ℚ := mathLerp y (5 + bob) (3/100)

/-- Counterexample to C2: in the first `game.js` revision (the claim's cited
lines 735-737), a boat starting the step at `y = 0` — below the floor
`waterLevel + hullClearance = 0 + 5` — ends the step at `y = 0.15 < 5` (bob
term `0`, attained at `sin = 0`; the boat's velocity has a zero vertical
component in every revision, so the prior `y` reaches this step unchanged).
The floor is only interpolated toward, not enforced. -/
theorem C2_floor_counterexample :
    floorStepLerp 0 0 = 3/20 ∧ floorStepLerp 0 0 < 5 := by
  norm_num [floorStepLerp, mathLerp]

/-- C2 as amended: in the revisions that clamp — `part_002` line 419 and the
second/third `game.js` revisions — the boat's `position.y` after the floor
step is never below the floor: at least `5` in `part_002`, and at least
`5 + bob ≥ 4.5` in the `game.js` revisions, whose floor is modulated by a
bob term of amplitude `0.5`.  The first `game.js` revision only lerps toward
the floor and admits the counterexample above. -/
theorem C2_floor_amended (y bob : ℚ) (hb : -(1/2) ≤ bob) :
    5 + bob ≤ floorStepClamp bob y ∧ (9/2 : ℚ) ≤ floorStepClamp bob y ∧
      5 ≤ floorStepPart002 y := by
  refine ⟨le_max_left _ _, le_trans (by linarith) (le_max_left _ _),
    le_max_left _ _⟩

/-- Witness for C2 as amended: a boat at `y = -100` with the bob term at its
lowest value `-1/2` is lifted to at least `4.5` by the clamping revisions. -/
theorem C2_floor_amended_witness :
    5 + -(1/2) ≤ floorStepClamp (-(1/2)) (-100) ∧
      (9/2 : ℚ) ≤ floorStepClamp (-(1/2)) (-100) ∧
      5 ≤ floorStepPart002 (-100) :=
  C2_floor_amended (-100) (-(1/2)) (by norm_num)

/-- The power-up types the client code compares against: it only ever checks
`powerUpType === 'nitro'`. -/
inductive PowerUpKind where
  | nitro
  | other
  deriving DecidableEq, Repr

/-- The client state touched by `usePowerUp()`:
`let speed`, `let hasPowerUp`, `let powerUpType`. -/
structure PowerState where
  speed : ℚ
  hasPowerUp : Bool
  powerUpType : Option PowerUpKind
  deriving DecidableEq, Repr

/-- `usePowerUp()` (identical in all revisions, e.g. `game.js` lines
1445-1456 and 2120-2131, `part_002` lines 250-261):
`if (powerUpType === 'nitro') { speed *= NITRO_MULTIPLIER; ... }`
`hasPowerUp = false; powerUpType = null;`
with the enclosing revision's `NITRO_MULTIPLIER` constant (2.0 in the second
and third `game.js` revisions, lines 1103 and 1862; 1.8 in the first
revision, line 15, and in `part_002`, line 12).  The emitted `powerUpUsed`
network message is cosmetic and not modelled. -/
def usePowerUp (nitroMult : ℚ) (st : PowerState) : PowerState :=
  { speed := if st.powerUpType = some PowerUpKind.nitro
      then st.speed * nitroMult else st.speed,
    hasPowerUp := false,
    powerUpType := none }

/-- `NITRO_MULTIPLIER = 2.0` in the second and third `game.js` revisions
(constants at lines 1103 and 1862), the revisions containing the
`usePowerUp` blocks at lines 1445-1456 and 2120-2131. -/
def NITRO_MULTIPLIER_revBC : ℚ := 2

/-- `NITRO_MULTIPLIER = 1.8` in the first `game.js` revision (line 15) and
in `part_002` (line 12). -/
def NITRO_MULTIPLIER_revA : ℚ := 18/10

/-- Counterexample to C3: in the second `game.js` revision (the claim cites
its `usePowerUp` at lines 1445-1456; `NITRO_MULTIPLIER = 2.0` at line 1103),
activating nitro at speed `100` multiplies the speed to `200` at the instant
of activation — a one-time instantaneous change — and on the very next
simulation tick (Δt = 1/60 s, well inside any 3-second window) with no keys
held the speed strictly DECREASES
(`200 → clamp(200 * 0.95 * 0.98) = 186.2`): no additional forward
acceleration term is applied on ticks after activation.  Indeed `update()`
reads no power-up state at all; the code has no boost duration window. -/
theorem C3_nitro_counterexample :
    (usePowerUp NITRO_MULTIPLIER_revBC ⟨100, true, some PowerUpKind.nitro⟩).speed
        = 200 ∧
      speedStep gameRevB kNone (1/60) 200 = 1862/10 ∧
      speedStep gameRevB kNone (1/60) 200 < 200 := by
  refine ⟨by norm_num [usePowerUp, NITRO_MULTIPLIER_revBC], ?_, ?_⟩ <;>
    norm_num [speedStep, accelPhase, mathClamp, gameRevB, kNone]

/-- C3 as amended: the nitro power-up is a one-time instantaneous effect:
`usePowerUp` multiplies the current speed by the revision's
`NITRO_MULTIPLIER` (2.0 in the cited second and third `game.js` revisions,
1.8 in the first revision and `part_002`) exactly when the held power-up is
nitro, then clears the power-up; there is no duration window and the
per-tick update applies no boost term (`speedStep` does not depend on
power-up state). -/
theorem C3_nitro_amended (nitroMult : ℚ) (st : PowerState)
    (h : st.powerUpType = some PowerUpKind.nitro) :
    (usePowerUp nitroMult st).speed = st.speed * nitroMult ∧
      (usePowerUp nitroMult st).hasPowerUp = false ∧
      (usePowerUp nitroMult st).powerUpType = none := by
  simp [usePowerUp, h]

/-- Witness for C3 as amended: activating nitro at speed `100` with the
cited revisions' multiplier `2.0` yields speed `100 * 2` and clears the
power-up. -/
theorem C3_nitro_amended_witness :
    (usePowerUp NITRO_MULTIPLIER_revBC ⟨100, true, some PowerUpKind.nitro⟩).speed
        = 100 * NITRO_MULTIPLIER_revBC ∧
      (usePowerUp NITRO_MULTIPLIER_revBC
        ⟨100, true, some PowerUpKind.nitro⟩).hasPowerUp = false ∧
      (usePowerUp NITRO_MULTIPLIER_revBC
        ⟨100, true, some PowerUpKind.nitro⟩).powerUpType = none :=
  C3_nitro_amended NITRO_MULTIPLIER_revBC ⟨100, true, some PowerUpKind.nitro⟩ rfl

/-- The additive acceleration model described by the spec sentence behind C4
("both terms apply and partially cancel via the additive model"): the
forward contribution is added and the reverse contribution subtracted
independently.  This definition follows the spec's words, for comparison
with `accelPhase`, which follows the source. -/
def accelPhaseSpecAdditive (cfg : PhysicsConfig) (k : Keys) (dt s : ℚ) : ℚ :=
  s + (if k.forward then cfg.accel * dt * cfg.forwardRate else 0)
    - (if k.backward then cfg.accel * dt * cfg.reverseRate else 0)

/-- Counterexample to C4: with forward and backward both held at the second
`game.js` revision's constants (Δt = 1, prior speed 0), the code's
acceleration phase yields `0 + 2000 = 2000` — the `else if` makes the
forward branch win and the reverse term is ignored — while the claim's
additive model predicts `0 + 2000 - 1400 = 600`. -/
theorem C4_additive_counterexample :
    accelPhase gameRevB kBoth 1 0 = 2000 ∧
      accelPhaseSpecAdditive gameRevB kBoth 1 0 = 600 ∧
      accelPhase gameRevB kBoth 1 0 ≠ accelPhaseSpecAdditive gameRevB kBoth 1 0 := by
  refine ⟨?_, ?_, ?_⟩ <;>
    norm_num [accelPhase, accelPhaseSpecAdditive, gameRevB, kBoth]

/-- C4 as amended: simultaneous forward+backward input is well-defined, but
by branch priority rather than additive cancellation: whenever the forward
key is held the acceleration phase applies exactly the forward term
(`speed + ACCELERATION * Δt * forwardRate`) and the reverse term is ignored
(`if/else if`). -/
theorem C4_forward_priority (cfg : PhysicsConfig) (k : Keys) (dt s : ℚ)
    (hf : k.forward = true) :
    accelPhase cfg k dt s = s + cfg.accel * dt * cfg.forwardRate := by
  simp [accelPhase, hf]

/-- Witness for C4 as amended: with both keys held at the second `game.js`
revision's constants, the acceleration phase equals the pure forward term. -/
theorem C4_forward_priority_witness :
    accelPhase gameRevB kBoth 1 0 =
      0 + gameRevB.accel * 1 * gameRevB.forwardRate :=
  C4_forward_priority gameRevB kBoth 1 0 rfl

/-- A horizontal (x, z) position; the checkpoint test uses 2D distance. -/
structure Vec2 where
  x : ℚ
  z : ℚ
  deriving DecidableEq, Repr

/-- The per-lap tracking state: `let currentCheckpoint = 0; let lapCount = 0;`. -/
structure LapState where
  currentCheckpoint : ℕ
  lapCount : ℕ
  deriving DecidableEq, Repr

/-- The guarded checkpoint/lap step of the `game.js` revisions (lines
1683-1700 and 2529-2548):
`if (checkpoints.length > 0 && currentCheckpoint < checkpoints.length) {`
`  const nextCheckpoint = checkpoints[currentCheckpoint];`
`  if (nextCheckpoint) { ... if (distanceToCheckpoint < TRACK_WIDTH/2) {`
`    currentCheckpoint = (currentCheckpoint + 1) % checkpoints.length;`
`    if (currentCheckpoint === 0) lapCount++; } } }`
The code compares the Euclidean 2D distance with the radius; both sides
being nonnegative, this is embedded as the equivalent squared comparison
`dx^2 + dz^2 < r^2`. -/
def checkpointStep (cps : List Vec2) (r : ℚ) (pos : Vec2) (st : LapState) :
    LapState :=
  if h : 0 < cps.length ∧ st.currentCheckpoint < cps.length then
    let cp := cps.get ⟨st.currentCheckpoint, h.2⟩
    if (pos.x - cp.x)^2 + (pos.z - cp.z)^2 < r^2 then
      let nc := (st.currentCheckpoint + 1) % cps.length
      { currentCheckpoint := nc,
        lapCount := if nc = 0 then st.lapCount + 1 else st.lapCount }
    else st
  else st

/-- The unguarded checkpoint/lap step of the `part_002` revision (lines
438-450): `const nextCheckpoint = checkpoints[currentCheckpoint];`
`const checkpointPos = nextCheckpoint.position;` … with no length guard.
When `checkpoints[currentCheckpoint]` is `undefined` (empty list), the
`.position` access throws a `TypeError`; the thrown case is embedded as
`none`. -/
def checkpointStepPart002 (cps : List Vec2) (r : ℚ) (pos : Vec2)
    (st : LapState) : Option LapState :=
  match cps.get? st.currentCheckpoint with
  | none => none
  | some cp =>
      some (if (pos.x - cp.x)^2 + (pos.z - cp.z)^2 < r^2 then
        { currentCheckpoint := (st.currentCheckpoint + 1) % cps.length,
          lapCount := if (st.currentCheckpoint + 1) % cps.length = 0
            then st.lapCount + 1 else st.lapCount }
      else st)

/-- Counterexample to C5: the claim quantifies over every non-empty
checkpoint list, but with a single checkpoint (`N = 1`) a boat sitting
inside its radius increments `lapCount` on EVERY frame: two consecutive
steps take `lapCount` from 0 to 1 and then from 1 to 2 while the boat never
leaves the radius — once per frame, not once per lap.  (The code has no
passed-state debouncing; its only debounce is the advance of the expected
index, which is vacuous when `N = 1`.) -/
theorem C5_lap_counterexample :
    checkpointStep [⟨0, 0⟩] 100 ⟨0, 0⟩ ⟨0, 0⟩ = ⟨0, 1⟩ ∧
      checkpointStep [⟨0, 0⟩] 100 ⟨0, 0⟩ ⟨0, 1⟩ = ⟨0, 2⟩ := by
  constructor <;> norm_num [checkpointStep]

/-- C5 as amended: `lapCount` is incremented at exactly one point — the
frame on which the expected index wraps from `N-1` to `0`, i.e. when the
boat enters checkpoint `N-1`'s radius (not, as the claim puts it, on
re-entering checkpoint 0's radius).  For `N ≥ 2`, if the boat is inside
checkpoint `N-1`'s radius but outside checkpoint 0's radius, the step wraps
the index to 0 and increments `lapCount` exactly once, and the following
frame from the same position is a no-op — the index advance is the
debounce.  With `N = 1` the counter instead increments every frame spent
inside the radius (counterexample above). -/
theorem C5_lap_amended (cps : List Vec2) (r : ℚ) (pos : Vec2) (lap : ℕ)
    (h2 : 2 ≤ cps.length)
    (hlast : ∀ hl : cps.length - 1 < cps.length,
      (pos.x - (cps.get ⟨cps.length - 1, hl⟩).x)^2 +
        (pos.z - (cps.get ⟨cps.length - 1, hl⟩).z)^2 < r^2)
    (hfirst : ∀ h0 : 0 < cps.length,
      ¬ ((pos.x - (cps.get ⟨0, h0⟩).x)^2 +
        (pos.z - (cps.get ⟨0, h0⟩).z)^2 < r^2)) :
    checkpointStep cps r pos ⟨cps.length - 1, lap⟩ = ⟨0, lap + 1⟩ ∧
      checkpointStep cps r pos ⟨0, lap + 1⟩ = ⟨0, lap + 1⟩ := by
  have hpos : 0 < cps.length := by omega
  have hlt : cps.length - 1 < cps.length := by omega
  constructor
  · rw [checkpointStep]
    rw [dif_pos ⟨hpos, hlt⟩]
    simp only [hlast hlt, if_pos]
    have : (cps.length - 1 + 1) % cps.length = 0 := by
      rw [Nat.sub_add_cancel (by omega)]
      exact Nat.mod_self _
    simp [this]
  · rw [checkpointStep]
    rw [dif_pos ⟨hpos, hpos⟩]
    simp [hfirst hpos]
    exact not_lt.mp (hfirst hpos)

/-- Witness for C5 as amended: two checkpoints at distance 1000, radius 100
(`TRACK_WIDTH/2`), boat on checkpoint 1: passing checkpoint 1 wraps the
index to 0 and bumps the lap count once; the next frame changes nothing. -/
theorem C5_lap_amended_witness :
    checkpointStep [⟨0, 0⟩, ⟨1000, 0⟩] 100 ⟨1000, 0⟩ ⟨1, 7⟩ = ⟨0, 8⟩ ∧
      checkpointStep [⟨0, 0⟩, ⟨1000, 0⟩] 100 ⟨1000, 0⟩ ⟨0, 8⟩ = ⟨0, 8⟩ := by
  have := C5_lap_amended [⟨0, 0⟩, ⟨1000, 0⟩] 100 ⟨1000, 0⟩ 7
    (by norm_num)
    (by intro hl; norm_num [List.get])
    (by intro h0; norm_num [List.get])
  simpa using this

/-- Counterexample to C6: the claim also cites the `part_002` revision
(lines 436-450), whose checkpoint step dereferences
`checkpoints[currentCheckpoint].position` without a length guard: on an
empty checkpoint list the lookup is `undefined` and the `.position` access
throws a `TypeError` (embedded as `none`) instead of being a no-op. -/
theorem C6_empty_counterexample :
    checkpointStepPart002 [] 100 ⟨0, 0⟩ ⟨0, 0⟩ = none := rfl

/-- C6 as amended: in the `game.js` revisions the checkpoint/lap step is
guarded by `checkpoints.length > 0 && currentCheckpoint < checkpoints.length`
(plus a null check) and on an empty checkpoint list it is a no-op, leaving
`currentCheckpoint` and `lapCount` unchanged and throwing nothing; the
unguarded `part_002` revision instead throws on an empty list
(counterexample above). -/
theorem C6_empty_amended (r : ℚ) (pos : Vec2) (st : LapState) :
    checkpointStep [] r pos st = st := by
  rw [checkpointStep]
  simp

/-- Counterexample to C7: the claim quantifies over every Δt ≥ 0, but at
Δt = 0 the speed 0 is a fixed point of the forward-input update step, so
under constantly held forward input the speed sequence starting at 0 is
constantly 0 and does not converge to `MAX_SPEED` (1500 at the second
`game.js` revision's constants; after 10 steps the speed is still 0).
More generally, for small Δt the recurrence converges to
`ACCEL * Δt * DRAG / (1 - DRAG)`, which is below `MAX_SPEED` whenever
`ACCEL * Δt * DRAG < (1 - DRAG) * MAX_SPEED`. -/
theorem C7_dt0_counterexample :
    speedStep gameRevB kFwd 0 0 = 0 ∧
      (speedStep gameRevB kFwd 0)^[10] 0 = 0 ∧
      gameRevB.maxSpeed = 1500 := by
  refine ⟨?_, ?_, rfl⟩
  · norm_num [speedStep, accelPhase, mathClamp, gameRevB, kFwd]
  · have h : speedStep gameRevB kFwd 0 0 = 0 := by
      norm_num [speedStep, accelPhase, mathClamp, gameRevB, kFwd]
    have : ∀ n : ℕ, (speedStep gameRevB kFwd 0)^[n] 0 = 0 := by
      intro n
      induction n with
      | zero => rfl
      | succ n ih => rw [Function.iterate_succ_apply, h, ih]
    exact this 10

/-- C7 as amended: under constantly held forward input the speed never
exceeds `MAX_SPEED` at any step, and — provided the per-step gain beats the
drag loss at the cap, i.e. `(1 - DRAG) * MAX_SPEED ≤ ACCEL * Δt * fr * DRAG`
(true for the source constants at ordinary frame times, e.g. Δt ≥ 1/60 s at
the second `game.js` revision's constants) — the speed converges to
`MAX_SPEED` asymptotically: from any start `s₀ ≤ MAX_SPEED` the gap after
`n` steps is at most `DRAG^n * (MAX_SPEED - s₀)`.  For smaller Δt
(including Δt = 0) the sequence instead converges below the cap
(counterexample above). -/
theorem C7_convergence_amended (cfg : PhysicsConfig) (dt s0 : ℚ) (n : ℕ)
    (hM : 0 ≤ cfg.maxSpeed) (hrf : 0 ≤ cfg.reverseFactor)
    (hD : 0 ≤ cfg.drag) (hdt : 0 ≤ dt)
    (hth : (1 - cfg.drag) * cfg.maxSpeed ≤
      cfg.accel * dt * cfg.forwardRate * cfg.drag)
    (hs0 : s0 ≤ cfg.maxSpeed) :
    (speedStep cfg kFwd dt)^[n] s0 ≤ cfg.maxSpeed ∧
      cfg.maxSpeed - (speedStep cfg kFwd dt)^[n] s0 ≤
        cfg.drag ^ n * (cfg.maxSpeed - s0) := by
  induction n with
  | zero => simpa using hs0
  | succ n ih =>
      obtain ⟨ih1, ih2⟩ := ih
      rw [Function.iterate_succ_apply']
      set s := (speedStep cfg kFwd dt)^[n] s0 with hs
      have hub : speedStep cfg kFwd dt s ≤ cfg.maxSpeed := by
        unfold speedStep mathClamp
        exact max_le (by nlinarith) (min_le_left _ _)
      refine ⟨hub, ?_⟩
      have hgap : 0 ≤ cfg.maxSpeed - s := by linarith
      have key : cfg.maxSpeed - speedStep cfg kFwd dt s ≤
          cfg.drag * (cfg.maxSpeed - s) := by
        have hacc : accelPhase cfg kFwd dt s =
            s + cfg.accel * dt * cfg.forwardRate := by
          simp [accelPhase, kFwd]
        unfold speedStep mathClamp
        rw [hacc]
        rcases le_or_lt cfg.maxSpeed
            ((s + cfg.accel * dt * cfg.forwardRate) * cfg.drag) with h | h
        · rw [min_eq_left h]
          have : cfg.maxSpeed ≤
              max (-(cfg.maxSpeed * cfg.reverseFactor)) cfg.maxSpeed :=
            le_max_right _ _
          nlinarith
        · rw [min_eq_right (le_of_lt h)]
          have hmax : (s + cfg.accel * dt * cfg.forwardRate) * cfg.drag ≤
              max (-(cfg.maxSpeed * cfg.reverseFactor))
                ((s + cfg.accel * dt * cfg.forwardRate) * cfg.drag) :=
            le_max_right _ _
          nlinarith
      calc cfg.maxSpeed - speedStep cfg kFwd dt s
          ≤ cfg.drag * (cfg.maxSpeed - s) := key
        _ ≤ cfg.drag * (cfg.drag ^ n * (cfg.maxSpeed - s0)) :=
            mul_le_mul_of_nonneg_left ih2 hD
        _ = cfg.drag ^ (n + 1) * (cfg.maxSpeed - s0) := by ring

/-- Witness for C7 as amended: at the second `game.js` revision's constants
with Δt = 1/30 and start speed 0, after 5 steps the speed is at most 1500
and within `0.98^5 * 1500` of the cap. -/
theorem C7_convergence_amended_witness :
    (speedStep gameRevB kFwd (1/30))^[5] 0 ≤ gameRevB.maxSpeed ∧
      gameRevB.maxSpeed - (speedStep gameRevB kFwd (1/30))^[5] 0 ≤
        gameRevB.drag ^ 5 * (gameRevB.maxSpeed - 0) :=
  C7_convergence_amended gameRevB (1/30) 0 5
    (by norm_num [gameRevB]) (by norm_num [gameRevB]) (by norm_num [gameRevB])
    (by norm_num) (by norm_num [gameRevB]) (by norm_num [gameRevB])

/-- A remote player's rendered boat: the only state the client handlers read
or write on it is its transform (`position.fromArray`, `rotation.fromArray`),
modelled as the two coordinate arrays. -/
structure RemoteBoat where
  position : List ℚ
  rotation : List ℚ
  deriving DecidableEq, Repr

/-- The freshly constructed `THREE.Mesh` boat a roster snapshot creates for
an unseen id, before its transform is overwritten: default transform. -/
def newRemoteBoat : RemoteBoat := ⟨[0, 0, 0], [0, 0, 0]⟩

/-- One player entry of a `playersList` roster snapshot. -/
structure PlayerSnap where
  id : String
  position : List ℚ
  rotation : List ℚ
  deriving DecidableEq, Repr

/-- JS `Map.has(i)` over an insertion-ordered entry list. -/
def mapHas {α : Type} (t : List (String × α)) (i : String) : Bool :=
  t.any fun e => e.1 == i

/-- JS `Map.get(i)`: the entry for key `i` (`undefined` ↦ `none`). -/
def mapGet {α : Type} (t : List (String × α)) (i : String) : Option α :=
  (t.find? fun e => e.1 == i).map Prod.snd

/-- JS `Map.set(i, b)`: overwrite the existing entry for `i`, else append. -/
def mapSet {α : Type} (t : List (String × α)) (i : String) (b : α) :
    List (String × α) :=
  if mapHas t i then t.map fun e => if e.1 == i then (i, b) else e
  else t ++ [(i, b)]

/-- How many entries of the table carry key `i` (1 ≤ for a genuine `Map`;
proving it stays ≤ 1 is the content of C8). -/
def countId {α : Type} (t : List (String × α)) (i : String) : ℕ :=
  (t.filter fun e => e.1 == i).length

theorem mapHas_true_iff {α : Type} (t : List (String × α)) (i : String) :
    mapHas t i = true ↔ ∃ e ∈ t, e.1 = i := by
  simp [mapHas, List.any_eq_true]

theorem mapHas_false_countId {α : Type} {t : List (String × α)} {i : String}
    (h : mapHas t i = false) : countId t i = 0 := by
  induction t with
  | nil => rfl
  | cons e t ih =>
      simp [mapHas, List.any_cons] at h
      simp [countId, List.filter_cons, h.1]
      have := ih (by simpa [mapHas] using h.2)
      simpa [countId] using this


theorem countId_overwrite {α : Type} (t : List (String × α)) (i : String)
    (b : α) (j : String) :
    countId (t.map fun e => if e.1 == i then (i, b) else e) j = countId t j := by
  induction t with
  | nil => rfl
  | cons e t ih =>
      simp only [List.map_cons]
      by_cases hei : (e.1 == i) = true
      · have hei' : e.1 = i := by simpa using hei
        by_cases hij : i = j
        · simp only [countId, List.filter_cons, hei, if_true] at ih ⊢
          simp [hij, hei'.trans hij, ih]
          simpa [countId, hij, hei'.trans hij] using ih
        · have : ¬ e.1 = j := fun hj => hij (hei' ▸ hj)
          simp only [countId, List.filter_cons] at ih ⊢
          simp [hei, hij, this]
          simpa [countId] using ih
      · simp only [countId, List.filter_cons, hei, if_false] at ih ⊢
        by_cases hej : (e.1 == j) = true
        · simp [hej]
          simpa [countId] using ih
        · simp [hej]
          simpa [countId] using ih

theorem mapHas_overwrite {α : Type} (t : List (String × α)) (i : String)
    (b : α) (j : String) :
    mapHas (t.map fun e => if e.1 == i then (i, b) else e) j = mapHas t j := by
  induction t with
  | nil => rfl
  | cons e t ih =>
      simp only [List.map_cons, mapHas, List.any_cons] at ih ⊢
      by_cases hei : (e.1 == i) = true
      · have hei' : e.1 = i := by simpa using hei
        simp only [hei, if_true]
        rw [ih, hei']
      · have hei0 : (e.1 == i) = false := by simpa using hei
        simp only [hei0, Bool.false_eq_true, if_false]
        rw [ih]

theorem countId_mapSet_has {α : Type} {t : List (String × α)} {i : String}
    (b : α) (h : mapHas t i = true) (j : String) :
    countId (mapSet t i b) j = countId t j := by
  rw [mapSet, if_pos h]
  exact countId_overwrite t i b j

theorem countId_mapSet_new {α : Type} {t : List (String × α)} {i : String}
    (b : α) (h : mapHas t i = false) (j : String) :
    countId (mapSet t i b) j = countId t j + if i = j then 1 else 0 := by
  rw [mapSet, if_neg (by simp [h])]
  by_cases hij : i = j
  · simp [countId, List.filter_append, hij]
  · simp [countId, List.filter_append, hij]

theorem mapHas_mapSet {α : Type} (t : List (String × α)) (i : String)
    (b : α) (j : String) :
    mapHas (mapSet t i b) j = (mapHas t j || i == j) := by
  by_cases h : mapHas t i = true
  · rw [mapSet, if_pos h, mapHas_overwrite]
    by_cases hij : i = j
    · subst hij
      simp [h]
    · simp [hij]
  · rw [mapSet, if_neg (by simp [h])]
    simp [mapHas, List.any_append]

theorem mapGet_eq_none_iff {α : Type} (t : List (String × α)) (i : String) :
    mapGet t i = none ↔ mapHas t i = false := by
  induction t with
  | nil => simp [mapGet, mapHas]
  | cons e t ih =>
      by_cases hei : (e.1 == i) = true
      · simp [mapGet, mapHas, List.find?_cons, hei]
      · have hei0 : (e.1 == i) = false := by simpa using hei
        simpa [mapGet, mapHas, List.find?_cons, hei0] using ih

theorem mapGet_overwrite {α : Type} (t : List (String × α)) (i : String)
    (b : α) :
    mapGet (t.map fun e => if e.1 == i then (i, b) else e) i =
      (mapGet t i).map fun _ => b := by
  induction t with
  | nil => rfl
  | cons e t ih =>
      by_cases hei : (e.1 == i) = true
      · rw [List.map_cons]
        rw [show (if e.1 == i then (i, b) else e) = (i, b) from by simp [hei]]
        simp only [mapGet, List.find?_cons]
        simp only [show (((i, b) : String × α).1 == i) = true from by simp, hei]
        rfl
      · have hei0 : (e.1 == i) = false := by simpa using hei
        rw [List.map_cons]
        rw [show (if e.1 == i then (i, b) else e) = e from by simp [hei0]]
        simp only [mapGet, List.find?_cons, hei0]
        simp only [mapGet] at ih
        exact ih

theorem mapGet_mapSet_self {α : Type} (t : List (String × α)) (i : String)
    (b : α) : mapGet (mapSet t i b) i = some b := by
  by_cases h : mapHas t i = true
  · rw [mapSet, if_pos h, mapGet_overwrite]
    cases hg : mapGet t i with
    | none => exact absurd ((mapGet_eq_none_iff t i).mp hg) (by simp [h])
    | some c => simp
  · have hnone : List.find? (fun e => e.1 == i) t = none := by
      have h2 := (mapGet_eq_none_iff t i).mpr (by simpa using h)
      rw [mapGet] at h2
      exact Option.map_eq_none.mp h2
    rw [mapSet, if_neg (by simp [h]), mapGet, List.find?_append, hnone]
    simp [List.find?_cons]

/-- Processing of one roster entry by the `playersList` handler (`game.js`
lines 1751-1771, identically at lines 995-1008 and 2551-2570, `part_002`
lines 455-473):
`if (player.id !== socket.id) {`
`  if (!otherPlayers.has(player.id)) { ...new boat...; otherPlayers.set(player.id, boat); }`
`  const boat = otherPlayers.get(player.id);`
`  boat.position.fromArray(player.position);`
`  boat.rotation.fromArray(player.rotation); }`
The `none` match arm is unreachable (the id was just ensured present) and
returns the table unchanged. -/
def playersListOne (selfId : String) (t : List (String × RemoteBoat))
    (p : PlayerSnap) : List (String × RemoteBoat) :=
  if p.id = selfId then t
  else
    let t1 := if mapHas t p.id then t else mapSet t p.id newRemoteBoat
    match mapGet t1 p.id with
    | some _ => mapSet t1 p.id ⟨p.position, p.rotation⟩
    | none => t1

/-- The full `playersList` handler: `players.forEach(player => ...)`. -/
def playersListHandler (selfId : String) (t : List (String × RemoteBoat))
    (ps : List PlayerSnap) : List (String × RemoteBoat) :=
  ps.foldl (playersListOne selfId) t

/-- The `playerMove` handler (`game.js` lines 1773-1779):
`const boat = otherPlayers.get(data.id);`
`if (boat) { boat.position.fromArray(data.position); boat.rotation.fromArray(data.rotation); }`. -/
def playerMoveHandler (t : List (String × RemoteBoat)) (i : String)
    (position rotation : List ℚ) : List (String × RemoteBoat) :=
  match mapGet t i with
  | some _ => mapSet t i ⟨position, rotation⟩
  | none => t

theorem playersListOne_countId (selfId : String) (p : PlayerSnap)
    (t : List (String × RemoteBoat)) (hnd : ∀ j, countId t j ≤ 1)
    (j : String) : countId (playersListOne selfId t p) j ≤ 1 := by
  rw [playersListOne]
  by_cases hself : p.id = selfId
  · rw [if_pos hself]
    exact hnd j
  · rw [if_neg hself]
    by_cases hhas : mapHas t p.id = true
    · simp only [hhas, if_true]
      cases hget : mapGet t p.id with
      | none => exact hnd j
      | some b =>
          rw [countId_mapSet_has _ hhas j]
          exact hnd j
    · have hhas0 : mapHas t p.id = false := by simpa using hhas
      simp only [hhas0, Bool.false_eq_true, if_false]
      rw [mapGet_mapSet_self]
      have hhas1 : mapHas (mapSet t p.id newRemoteBoat) p.id = true := by
        rw [mapHas_mapSet]
        simp
      rw [countId_mapSet_has _ hhas1 j, countId_mapSet_new _ hhas0 j]
      by_cases hij : p.id = j
      · rw [if_pos hij]
        have : countId t j = 0 := by
          rw [← hij]
          exact mapHas_false_countId hhas0
        omega
      · rw [if_neg hij]
        simpa using hnd j

theorem playersListOne_mapHas (selfId : String) (p : PlayerSnap)
    (t : List (String × RemoteBoat)) (i : String) :
    (mapHas (playersListOne selfId t p) i = true ↔
      mapHas t i = true ∨ (p.id = i ∧ ¬ i = selfId)) := by
  rw [playersListOne]
  by_cases hself : p.id = selfId
  · rw [if_pos hself]
    constructor
    · exact fun h => Or.inl h
    · rintro (h | ⟨hpi, his⟩)
      · exact h
      · exact absurd (hpi ▸ hself) his
  · rw [if_neg hself]
    by_cases hhas : mapHas t p.id = true
    · simp only [hhas, if_true]
      cases hget : mapGet t p.id with
      | none =>
          constructor
          · exact fun h => Or.inl h
          · rintro (h | ⟨hpi, _⟩)
            · exact h
            · exact hpi ▸ hhas
      | some b =>
          rw [mapHas_mapSet]
          constructor
          · intro h
            rcases Bool.or_eq_true_iff.mp h with h | h
            · exact Or.inl h
            · have : p.id = i := by simpa using h
              exact Or.inl (this ▸ hhas)
          · rintro (h | ⟨hpi, _⟩)
            · simp [h]
            · simp [hpi ▸ hhas]
    · have hhas0 : mapHas t p.id = false := by simpa using hhas
      simp only [hhas0, Bool.false_eq_true, if_false]
      rw [mapGet_mapSet_self, mapHas_mapSet, mapHas_mapSet]
      constructor
      · intro h
        rcases Bool.or_eq_true_iff.mp h with h | h
        · rcases Bool.or_eq_true_iff.mp h with h | h
          · exact Or.inl h
          · exact Or.inr ⟨by simpa using h, fun his => hself (his ▸ (by simpa using h))⟩
        · exact Or.inr ⟨by simpa using h, fun his => hself (his ▸ (by simpa using h))⟩
      · rintro (h | ⟨hpi, _⟩)
        · simp [h]
        · simp [hpi]

theorem playersListOne_get_update (selfId : String) (p : PlayerSnap)
    (t : List (String × RemoteBoat)) (hself : ¬ p.id = selfId) :
    mapGet (playersListOne selfId t p) p.id = some ⟨p.position, p.rotation⟩ := by
  rw [playersListOne, if_neg hself]
  by_cases hhas : mapHas t p.id = true
  · simp only [hhas, if_true]
    cases hget : mapGet t p.id with
    | none => exact absurd ((mapGet_eq_none_iff t p.id).mp hget) (by simp [hhas])
    | some b => rw [mapGet_mapSet_self]
  · have hhas0 : mapHas t p.id = false := by simpa using hhas
    simp only [hhas0, Bool.false_eq_true, if_false]
    rw [mapGet_mapSet_self, mapGet_mapSet_self]

theorem playersListHandler_inv (selfId : String) (ps : List PlayerSnap) :
    ∀ t : List (String × RemoteBoat), (∀ j, countId t j ≤ 1) →
      (∀ j, countId (playersListHandler selfId t ps) j ≤ 1) ∧
      (∀ i, mapHas (playersListHandler selfId t ps) i = true ↔
        mapHas t i = true ∨ ∃ p ∈ ps, p.id = i ∧ ¬ i = selfId) := by
  induction ps with
  | nil =>
      intro t h
      refine ⟨h, fun i => ?_⟩
      simp [playersListHandler]
  | cons p ps ih =>
      intro t h
      have hstep : ∀ j, countId (playersListOne selfId t p) j ≤ 1 :=
        playersListOne_countId selfId p t h
      obtain ⟨ih1, ih2⟩ := ih (playersListOne selfId t p) hstep
      have hfold : playersListHandler selfId t (p :: ps) =
          playersListHandler selfId (playersListOne selfId t p) ps := rfl
      rw [hfold]
      refine ⟨ih1, fun i => ?_⟩
      rw [ih2 i, playersListOne_mapHas]
      constructor
      · rintro ((h1 | ⟨h1, h2⟩) | ⟨q, hq, h1, h2⟩)
        · exact Or.inl h1
        · exact Or.inr ⟨p, List.mem_cons_self p ps, h1, h2⟩
        · exact Or.inr ⟨q, List.mem_cons_of_mem p hq, h1, h2⟩
      · rintro (h1 | ⟨q, hq, h1, h2⟩)
        · exact Or.inl (Or.inl h1)
        · rcases List.mem_cons.mp hq with rfl | hq2
          · exact Or.inl (Or.inr ⟨h1, h2⟩)
          · exact Or.inr ⟨q, hq2, h1, h2⟩

/-- C8: starting from a duplicate-free RemotePlayer table, processing any
sequence of roster entries keeps every id with at most one entry; an id is
present after the snapshot exactly when it was present before or occurs in
the snapshot with an id other than the local player's (so an unseen remote
id gets exactly one entry and a repeated id never gets a duplicate); and a
snapshot entry for a known-or-new remote id leaves that id's single entry
holding the snapshot's position and rotation. -/
theorem C8_roster_no_duplicates (selfId i j : String)
    (t : List (String × RemoteBoat)) (ps : List PlayerSnap) (p : PlayerSnap)
    (hnd : ∀ a, countId t a ≤ 1) (hp : ¬ p.id = selfId) :
    countId (playersListHandler selfId t ps) j ≤ 1 ∧
      (mapHas (playersListHandler selfId t ps) i = true ↔
        mapHas t i = true ∨ ∃ q ∈ ps, q.id = i ∧ ¬ i = selfId) ∧
      mapGet (playersListHandler selfId t [p]) p.id =
        some ⟨p.position, p.rotation⟩ := by
  obtain ⟨h1, h2⟩ := playersListHandler_inv selfId ps t hnd
  refine ⟨h1 j, h2 i, ?_⟩
  have : playersListHandler selfId t [p] = playersListOne selfId t p := rfl
  rw [this]
  exact playersListOne_get_update selfId p t hp

/-- Witness for C8: an empty table processed with a two-entry snapshot that
repeats the unseen id `r1` ends with exactly one `r1` entry, present as
characterized, and a singleton snapshot writes its transform. -/
theorem C8_roster_no_duplicates_witness :
    countId (playersListHandler "me" []
        [⟨"r1", [1, 2, 3], [0, 0, 0]⟩, ⟨"r1", [7, 8, 9], [1, 1, 1]⟩]) "r1" ≤ 1 ∧
      (mapHas (playersListHandler "me" []
          [⟨"r1", [1, 2, 3], [0, 0, 0]⟩, ⟨"r1", [7, 8, 9], [1, 1, 1]⟩]) "r1" = true ↔
        mapHas ([] : List (String × RemoteBoat)) "r1" = true ∨
          ∃ q ∈ [(⟨"r1", [1, 2, 3], [0, 0, 0]⟩ : PlayerSnap),
            ⟨"r1", [7, 8, 9], [1, 1, 1]⟩], q.id = "r1" ∧ ¬ "r1" = "me") ∧
      mapGet (playersListHandler "me" [] [⟨"r1", [7, 8, 9], [1, 1, 1]⟩]) "r1" =
        some ⟨[7, 8, 9], [1, 1, 1]⟩ :=
  C8_roster_no_duplicates "me" "r1" "r1" []
    [⟨"r1", [1, 2, 3], [0, 0, 0]⟩, ⟨"r1", [7, 8, 9], [1, 1, 1]⟩]
    ⟨"r1", [7, 8, 9], [1, 1, 1]⟩
    (fun a => by simp [countId]) (by simp)

/-- C9: a `playerMove` delta whose id is absent from the RemotePlayer table
is a no-op: the handler returns the table unchanged — no entity is created,
none is modified, and the guarded lookup cannot crash. -/
theorem C9_delta_unknown_noop (t : List (String × RemoteBoat)) (i : String)
    (position rotation : List ℚ) (h : mapGet t i = none) :
    playerMoveHandler t i position rotation = t := by
  simp [playerMoveHandler, h]

/-- Witness for C9: a delta for id `ghost` on the empty table leaves the
table empty. -/
theorem C9_delta_unknown_noop_witness :
    playerMoveHandler [] "ghost" [1, 2, 3] [0, 0, 0] = [] :=
  C9_delta_unknown_noop [] "ghost" [1, 2, 3] [0, 0, 0] rfl

/-- The payload of a client `playerUpdate` message (`game.js` emits
`{position, rotation, speed, isDrifting}`). -/
structure UpdateData where
  position : List ℚ
  rotation : List ℚ
  speed : ℚ
  isDrifting : Bool
  deriving DecidableEq, Repr

/-- A server-side player record (`part_004` lines 28-36): id, transform,
speed, drifting flag and held power-up. -/
structure PlayerRec where
  id : String
  position : List ℚ
  rotation : List ℚ
  speed : ℚ
  isDrifting : Bool
  powerUp : Option String
  deriving DecidableEq, Repr

/-- A relayed `playerMove` delta (`socket.broadcast.emit('playerMove',
{ id: socket.id, ...data })`). -/
structure MoveMsg where
  id : String
  position : List ℚ
  rotation : List ℚ
  speed : ℚ
  isDrifting : Bool
  deriving DecidableEq, Repr

/-- The JS spread merge `{...gameState.players.get(socket.id), ...data}`. -/
def mergeUpdate (r : PlayerRec) (d : UpdateData) : PlayerRec :=
  { r with
    position := d.position
    rotation := d.rotation
    speed := d.speed
    isDrifting := d.isDrifting }

/-- The relay server's `playerUpdate` handler (`part_004` lines 41-53):
`if (gameState.players.has(socket.id)) {`
`  gameState.players.set(socket.id, {...gameState.players.get(socket.id), ...data});`
`  socket.broadcast.emit('playerMove', { id: socket.id, ...data }); }`
Returns the updated players map together with the list of `playerMove`
deltas relayed to the other connections. -/
def playerUpdateHandler (players : List (String × PlayerRec))
    (senderId : String) (d : UpdateData) :
    List (String × PlayerRec) × List MoveMsg :=
  if mapHas players senderId then
    match mapGet players senderId with
    | some r => (mapSet players senderId (mergeUpdate r d),
        [⟨senderId, d.position, d.rotation, d.speed, d.isDrifting⟩])
    | none => (players, [])
  else (players, [])

/-- C10: a `playerUpdate` from a connection whose id is not in the players
map (one that never sent `playerJoin`) is ignored atomically: the players
map is unchanged — no record created or merged — and no `playerMove` delta
is relayed to anyone. -/
theorem C10_server_update_guarded (players : List (String × PlayerRec))
    (senderId : String) (d : UpdateData)
    (h : mapHas players senderId = false) :
    playerUpdateHandler players senderId d = (players, []) := by
  simp [playerUpdateHandler, h]

/-- Witness for C10: an update from unknown connection `anon` on an empty
players map changes nothing and relays nothing. -/
theorem C10_server_update_guarded_witness :
    playerUpdateHandler [] "anon" ⟨[1], [2], 3, true⟩ = ([], []) :=
  C10_server_update_guarded [] "anon" ⟨[1], [2], 3, true⟩ rfl
